import Mathlib

/-!
Verification development for the Creator AI App repository, centered on the
Streaming Voice Pipeline implemented in src/components/LiveAssistant.tsx and
the video-generation polling loop in src/hooks/useAistudio.ts.

The embedding is shallow: React useState values and useRef cells become fields
of an explicit record `LiveState`; each handler of the component becomes a pure
function on that record.  Times and sample values (JS numbers) are modelled as
rationals.  Release of owned resources (remote session handle, microphone
device stream, frame-capture processor, the two audio contexts) is tracked by
explicit counters so that exactly-once-release statements can be expressed.
-/

namespace CreatorAI

/-- The four connection states of the pipeline, from the `ConnectionState`
type alias in LiveAssistant.tsx. -/
inductive ConnectionState where
  | disconnected
  | connecting
  | connected
  | error
deriving DecidableEq, Repr

/-- One `(user, model)` transcript pair; both the interim accumulator
`currentInterim` and the entries of the finalized `transcripts` list have
this shape. -/
structure InterimPair where
  user : String
  model : String
deriving DecidableEq, Repr

/-- An audio context handle: whether `close()` has taken it to the `closed`
state, and how many times `close()` has been invoked on it. -/
structure AudioCtx where
  closed : Bool
  closeCount : Nat
deriving DecidableEq, Repr

/-- The mutable state of the LiveAssistant component: the `useState` values
(connectionState, transcripts, currentInterim) and the `useRef` cells
(sessionPromiseRef, streamRef, scriptProcessorRef, audioContextRef,
outputAudioContextRef, nextStartTimeRef, sourcesRef).  `Option Unit` models a
nullable handle; the `...Count` fields count release operations performed on
each owned resource, and `captureWired` records whether the frame-capture
stage (mediaStreamSource → scriptProcessor → destination) has been connected.
`sources` records, in schedule order, the start times of the scheduled
playback buffers (the sourcesRef set, kept as a list to retain order). -/
structure LiveState where
  connectionState : ConnectionState
  transcripts : List InterimPair
  currentInterim : InterimPair
  sessionPromise : Option Unit
  sessionCloseCount : Nat
  stream : Option Unit
  streamStopCount : Nat
  scriptProcessor : Option Unit
  processorDisconnectCount : Nat
  audioContext : Option AudioCtx
  outputAudioContext : Option AudioCtx
  nextStartTime : ℚ
  sources : List ℚ
  captureWired : Bool
deriving DecidableEq, Repr

/-- The component state before any interaction: all refs null, counters zero,
state disconnected. -/
def initialState : LiveState where
  connectionState := ConnectionState.disconnected
  transcripts := []
  currentInterim := ⟨"", ""⟩
  sessionPromise := none
  sessionCloseCount := 0
  stream := none
  streamStopCount := 0
  scriptProcessor := none
  processorDisconnectCount := 0
  audioContext := none
  outputAudioContext := none
  nextStartTime := 0
  sources := []
  captureWired := false

/-- First step of `stopConversation`: if sessionPromiseRef is non-null, close
the session (via .then, counted once) and null the ref. -/
def closeSession (st : LiveState) : LiveState :=
  match st.sessionPromise with
  | some _ => { st with sessionPromise := none
                        sessionCloseCount := st.sessionCloseCount + 1 }
  | none => st

/-- Second step of `stopConversation`: if streamRef is non-null, stop its
tracks (the device stream is modelled with a single audio track, the usual
case for `getUserMedia({audio:true})`) and null the ref. -/
def stopStreamTracks (st : LiveState) : LiveState :=
  match st.stream with
  | some _ => { st with stream := none
                        streamStopCount := st.streamStopCount + 1 }
  | none => st

/-- Third step of `stopConversation`: if scriptProcessorRef is non-null,
disconnect it and null the ref. -/
def disconnectProcessor (st : LiveState) : LiveState :=
  match st.scriptProcessor with
  | some _ => { st with scriptProcessor := none
                        processorDisconnectCount := st.processorDisconnectCount + 1
                        captureWired := false }
  | none => st

/-- Fourth step of `stopConversation`: close audioContextRef if present and
not already closed.  Note the source does not null this ref; the state check
guards against a second close. -/
def closeInputCtx (st : LiveState) : LiveState :=
  match st.audioContext with
  | some c =>
      if c.closed then st
      else { st with audioContext := some ⟨true, c.closeCount + 1⟩ }
  | none => st

/-- Fifth step of `stopConversation`: same for outputAudioContextRef. -/
def closeOutputCtx (st : LiveState) : LiveState :=
  match st.outputAudioContext with
  | some c =>
      if c.closed then st
      else { st with outputAudioContext := some ⟨true, c.closeCount + 1⟩ }
  | none => st

/-- `stopConversation` from LiveAssistant.tsx: close the session handle, stop
the device stream, disconnect the frame-capture processor, close both audio
contexts when still open, and set the connection state to disconnected. -/
def stopConversation (st : LiveState) : LiveState :=
  { closeOutputCtx (closeInputCtx (disconnectProcessor (stopStreamTracks (closeSession st)))) with
      connectionState := ConnectionState.disconnected }

/-- The synchronous body of `startConversation` from LiveAssistant.tsx: an
early return when the state is not disconnected; otherwise set connecting,
clear transcripts and the interim accumulators, create the two fresh audio
contexts (16 kHz capture, 24 kHz output), reset nextStartTimeRef to 0, clear
the scheduled-source set, and store the promise returned by connectLive.
This is the state reached before the remote session signals open. -/
def startConversation (st : LiveState) : LiveState :=
  if st.connectionState ≠ ConnectionState.disconnected then st
  else
    { st with
        connectionState := ConnectionState.connecting
        transcripts := []
        currentInterim := ⟨"", ""⟩
        audioContext := some ⟨false, 0⟩
        outputAudioContext := some ⟨false, 0⟩
        nextStartTime := 0
        sources := []
        sessionPromise := some () }

/-- The `onopen` callback of `startConversation`.  It first sets the state to
connected; it then awaits `getUserMedia`.  When permission is granted the
stream is stored, the script processor (block size 4096) is created and the
capture stage is wired.  When permission is denied the await rejects inside
this async callback: none of the remaining statements run, and the rejection
is not observed by the try/catch of `startConversation` (which has already
returned), so no further state change happens. -/
def onopenStep (permissionGranted : Bool) (st : LiveState) : LiveState :=
  let st1 := { st with connectionState := ConnectionState.connected }
  if permissionGranted then
    { st1 with stream := some ()
               scriptProcessor := some ()
               captureWired := true }
  else st1

/-- The `onerror` callback: log, set the state to error, then invoke
`stopConversation` (whose last action sets the state to disconnected). -/
def onerrorStep (st : LiveState) : LiveState :=
  stopConversation { st with connectionState := ConnectionState.error }

/-- The `onclose` callback: invoke `stopConversation`. -/
def oncloseStep (st : LiveState) : LiveState :=
  stopConversation st

/-- Shape of `message.serverContent` as consumed by `handleMessage`:
optional input/output transcription fragments, a turn-complete flag, and an
optional inbound audio payload.  The audio payload is abstracted by the
duration of the buffer it decodes to (the only attribute the scheduling
logic reads). -/
structure ServerContent where
  inputTranscription : Option String
  outputTranscription : Option String
  turnComplete : Bool
  audioData : Option ℚ
deriving DecidableEq, Repr

/-- `handleMessage` from LiveAssistant.tsx, for one inbound message.

`cap` is the value of the `currentInterim` state variable captured by the
closure: the session callbacks (hence the `handleMessage` closure they call)
are created once, inside the render whose `startConversation` ran, so the
plain reads of `currentInterim` in the turn-complete branch always see the
value from that render.  The appends for transcription fragments use the
functional-updater form `prev => ...` and therefore act on the latest state.

`now` is `outputAudioContextRef.current.currentTime` at handling time.  The
audio branch runs only when a payload is present and the output context ref
is non-null; it sets the cursor to `max(cursor, now)`, schedules the decoded
buffer at that time, advances the cursor by the buffer duration and records
the scheduled source. -/
def handleMessage (cap : InterimPair) (now : ℚ) (msg : ServerContent)
    (st : LiveState) : LiveState :=
  let st1 := match msg.inputTranscription with
    | some t => { st with currentInterim :=
                    ⟨st.currentInterim.user ++ t, st.currentInterim.model⟩ }
    | none => st
  let st2 := match msg.outputTranscription with
    | some t => { st1 with currentInterim :=
                    ⟨st1.currentInterim.user, st1.currentInterim.model ++ t⟩ }
    | none => st1
  let st3 := if msg.turnComplete then
      { st2 with transcripts := st2.transcripts ++ [cap]
                 currentInterim := ⟨"", ""⟩ }
    else st2
  match msg.audioData, st3.outputAudioContext with
  | some dur, some _ =>
      let s := max st3.nextStartTime now
      { st3 with nextStartTime := s + dur
                 sources := st3.sources ++ [s] }
  | _, _ => st3

/-- A message carrying only an input (user) transcription fragment. -/
def userMsg (t : String) : ServerContent := ⟨some t, none, false, none⟩

/-- A message carrying only an output (model) transcription fragment. -/
def modelMsg (t : String) : ServerContent := ⟨none, some t, false, none⟩

/-- A message carrying only the turn-complete signal. -/
def turnCompleteMsg : ServerContent := ⟨none, none, true, none⟩

/-- A message carrying only an inbound audio fragment of the given decoded
buffer duration. -/
def audioMsg (dur : ℚ) : ServerContent := ⟨none, none, false, some dur⟩

/-- Process a list of inbound messages in arrival order, all with the same
captured interim value `cap` and with the output-clock time of each message
supplied alongside it. -/
def processMsgs (cap : InterimPair) (msgs : List (ℚ × ServerContent))
    (st : LiveState) : LiveState :=
  msgs.foldl (fun s m => handleMessage cap m.1 m.2 s) st

/-- The start times assigned by the audio branch of `handleMessage` to a
sequence of audio fragments, given as (arrival time on the output clock,
buffer duration) pairs, starting from playback cursor `cursor`: each
fragment starts at `max cursor arrival` and the cursor then advances by the
duration. -/
def scheduleStarts (cursor : ℚ) : List (ℚ × ℚ) → List ℚ
  | [] => []
  | (t, d) :: rest =>
      let s := max cursor t
      s :: scheduleStarts (s + d) rest

/-- The block size passed to `createScriptProcessor(4096, 1, 1)` in
`startConversation`: every captured input block has 4096 samples. -/
def scriptProcessorBufferSize : Nat := 4096

/-- Truncation toward zero, the integer conversion JS applies when a number
is stored into an Int16Array element. -/
def ratTrunc (q : ℚ) : ℤ := if 0 ≤ q then ⌊q⌋ else ⌈q⌉

/-- Reduce an integer modulo 2^16 into the signed 16-bit range
[-32768, 32768), as Int16Array storage does. -/
def int16Wrap (v : ℤ) : ℤ :=
  if v % 65536 < 32768 then v % 65536 else v % 65536 - 65536

/-- The per-sample conversion of `createBlob`: `int16[i] = data[i] * 32768`,
i.e. scale by 32768, truncate toward zero, wrap modulo 2^16 into the signed
16-bit range. -/
def toInt16 (q : ℚ) : ℤ := int16Wrap (ratTrunc (q * 32768))

/-- The two bytes of a signed 16-bit value in the Int16Array buffer, in
little-endian order (the byte order `new Uint8Array(int16.buffer)` observes
on the little-endian platforms JS runs on). -/
def int16Bytes (v : ℤ) : List Nat :=
  let u := (v % 65536).toNat
  [u % 256, u / 256]

/-- The standard base64 alphabet. -/
def base64Alphabet : String :=
  "ABCDEFGHIJKLMNOPQRSTUVWXYZabcdefghijklmnopqrstuvwxyz0123456789+/"

/-- Character for a 6-bit group. -/
def b64Char (n : Nat) : Char := base64Alphabet.toList.getD n 'A'

/-- Modelled from the spec: the `encode` helper of src/utils/audioUtils (the
file itself is not under src; the spec states the capture stage
"base64-encodes the resulting bytes").  Standard base64 of a byte list:
groups of three bytes become four alphabet characters, with `=` padding for
a final group of one or two bytes. -/
def encode : List Nat → String
  | [] => ""
  | [b0] =>
      String.mk [b64Char (b0 / 4), b64Char (b0 % 4 * 16), '=', '=']
  | [b0, b1] =>
      String.mk [b64Char (b0 / 4), b64Char (b0 % 4 * 16 + b1 / 16),
                 b64Char (b1 % 16 * 4), '=']
  | b0 :: b1 :: b2 :: rest =>
      String.mk [b64Char (b0 / 4), b64Char (b0 % 4 * 16 + b1 / 16),
                 b64Char (b1 % 16 * 4 + b2 / 64), b64Char (b2 % 64)]
        ++ encode rest

/-- An outbound realtime-input message: base64 PCM payload plus mime type
(the `Blob` value passed to `sendRealtimeInput`). -/
structure BlobMsg where
  data : String
  mimeType : String
deriving DecidableEq, Repr

/-- `createBlob` from LiveAssistant.tsx: convert every float sample of the
block to a signed 16-bit PCM value, lay the values out as little-endian
bytes, base64-encode those bytes, and attach the fixed mime type. -/
def createBlob (data : List ℚ) : BlobMsg where
  data := encode ((data.map toInt16).flatMap int16Bytes)
  mimeType := "audio/pcm;rate=16000"

/-- The `onaudioprocess` handler wired in `onopen`: for a captured block it
transmits exactly one realtime-input message built by `createBlob`, but only
when sessionPromiseRef is non-null; after `stopConversation` has cleared the
ref to null, the block produces no transmission.  The returned list is the
sequence of messages transmitted for this block. -/
def onaudioprocess (sessionPromise : Option Unit) (block : List ℚ) :
    List BlobMsg :=
  match sessionPromise with
  | some _ => [createBlob block]
  | none => []

/-- The polling interval of `generateVideo` in src/hooks/useAistudio.ts:
`setTimeout(resolve, 10000)` before each re-poll. -/
def pollIntervalMs : Nat := 10000

/-- The `while (!operation.done)` loop of `generateVideo`, with the remote
operation abstracted as the predicate `done k` = "the operation reports done
at the k-th poll" (k = 0 is the operation returned by `generateVideos`
itself).  The loop has no cap, no backoff and no timeout in the source, so
its unbounded iteration is represented with explicit fuel: `some k` means
the loop exited after observing `done k`; `none` means the fuel ran out with
the loop still waiting. -/
def pollVideoOperation (done : Nat → Bool) (k : Nat) : Nat → Option Nat
  | 0 => if done k then some k else none
  | fuel + 1 => if done k then some k else pollVideoOperation done (k + 1) fuel

/-- The sleeps the loop performs, in order, within the given fuel: one
`pollIntervalMs` delay before every re-poll. -/
def pollDelays (done : Nat → Bool) (k : Nat) : Nat → List Nat
  | 0 => []
  | fuel + 1 =>
      if done k then []
      else pollIntervalMs :: pollDelays done (k + 1) fuel

/-- Number of `close()` calls performed on an optional audio context. -/
def ctxCloseCount : Option AudioCtx → Nat
  | none => 0
  | some c => c.closeCount

/-- Whether an optional audio context is present and not yet closed. -/
def ctxOpen : Option AudioCtx → Bool
  | none => false
  | some c => !c.closed

@[simp] theorem closeSession_sessionPromise (st : LiveState) :
    (closeSession st).sessionPromise = none := by
  cases h : st.sessionPromise <;> simp [closeSession, h]

@[simp] theorem closeSession_sessionCloseCount (st : LiveState) :
    (closeSession st).sessionCloseCount
      = st.sessionCloseCount + (if st.sessionPromise.isSome then 1 else 0) := by
  cases h : st.sessionPromise <;> simp [closeSession, h]

@[simp] theorem closeSession_stream (st : LiveState) :
    (closeSession st).stream = st.stream := by
  cases h : st.sessionPromise <;> simp [closeSession, h]

@[simp] theorem closeSession_streamStopCount (st : LiveState) :
    (closeSession st).streamStopCount = st.streamStopCount := by
  cases h : st.sessionPromise <;> simp [closeSession, h]

@[simp] theorem closeSession_scriptProcessor (st : LiveState) :
    (closeSession st).scriptProcessor = st.scriptProcessor := by
  cases h : st.sessionPromise <;> simp [closeSession, h]

@[simp] theorem closeSession_processorDisconnectCount (st : LiveState) :
    (closeSession st).processorDisconnectCount = st.processorDisconnectCount := by
  cases h : st.sessionPromise <;> simp [closeSession, h]

@[simp] theorem closeSession_captureWired (st : LiveState) :
    (closeSession st).captureWired = st.captureWired := by
  cases h : st.sessionPromise <;> simp [closeSession, h]

@[simp] theorem closeSession_audioContext (st : LiveState) :
    (closeSession st).audioContext = st.audioContext := by
  cases h : st.sessionPromise <;> simp [closeSession, h]

@[simp] theorem closeSession_outputAudioContext (st : LiveState) :
    (closeSession st).outputAudioContext = st.outputAudioContext := by
  cases h : st.sessionPromise <;> simp [closeSession, h]

theorem closeSession_of_none {st : LiveState} (h : st.sessionPromise = none) :
    closeSession st = st := by
  simp [closeSession, h]

@[simp] theorem stopStreamTracks_stream (st : LiveState) :
    (stopStreamTracks st).stream = none := by
  cases h : st.stream <;> simp [stopStreamTracks, h]

@[simp] theorem stopStreamTracks_streamStopCount (st : LiveState) :
    (stopStreamTracks st).streamStopCount
      = st.streamStopCount + (if st.stream.isSome then 1 else 0) := by
  cases h : st.stream <;> simp [stopStreamTracks, h]

@[simp] theorem stopStreamTracks_sessionPromise (st : LiveState) :
    (stopStreamTracks st).sessionPromise = st.sessionPromise := by
  cases h : st.stream <;> simp [stopStreamTracks, h]

@[simp] theorem stopStreamTracks_sessionCloseCount (st : LiveState) :
    (stopStreamTracks st).sessionCloseCount = st.sessionCloseCount := by
  cases h : st.stream <;> simp [stopStreamTracks, h]

@[simp] theorem stopStreamTracks_scriptProcessor (st : LiveState) :
    (stopStreamTracks st).scriptProcessor = st.scriptProcessor := by
  cases h : st.stream <;> simp [stopStreamTracks, h]

@[simp] theorem stopStreamTracks_processorDisconnectCount (st : LiveState) :
    (stopStreamTracks st).processorDisconnectCount
      = st.processorDisconnectCount := by
  cases h : st.stream <;> simp [stopStreamTracks, h]

@[simp] theorem stopStreamTracks_captureWired (st : LiveState) :
    (stopStreamTracks st).captureWired = st.captureWired := by
  cases h : st.stream <;> simp [stopStreamTracks, h]

@[simp] theorem stopStreamTracks_audioContext (st : LiveState) :
    (stopStreamTracks st).audioContext = st.audioContext := by
  cases h : st.stream <;> simp [stopStreamTracks, h]

@[simp] theorem stopStreamTracks_outputAudioContext (st : LiveState) :
    (stopStreamTracks st).outputAudioContext = st.outputAudioContext := by
  cases h : st.stream <;> simp [stopStreamTracks, h]

theorem stopStreamTracks_of_none {st : LiveState} (h : st.stream = none) :
    stopStreamTracks st = st := by
  simp [stopStreamTracks, h]

@[simp] theorem disconnectProcessor_scriptProcessor (st : LiveState) :
    (disconnectProcessor st).scriptProcessor = none := by
  cases h : st.scriptProcessor <;> simp [disconnectProcessor, h]

@[simp] theorem disconnectProcessor_processorDisconnectCount (st : LiveState) :
    (disconnectProcessor st).processorDisconnectCount
      = st.processorDisconnectCount
        + (if st.scriptProcessor.isSome then 1 else 0) := by
  cases h : st.scriptProcessor <;> simp [disconnectProcessor, h]

@[simp] theorem disconnectProcessor_captureWired (st : LiveState) :
    (disconnectProcessor st).captureWired
      = (st.captureWired && !st.scriptProcessor.isSome) := by
  cases h : st.scriptProcessor <;> cases hw : st.captureWired <;>
    simp [disconnectProcessor, h, hw]

@[simp] theorem disconnectProcessor_sessionPromise (st : LiveState) :
    (disconnectProcessor st).sessionPromise = st.sessionPromise := by
  cases h : st.scriptProcessor <;> simp [disconnectProcessor, h]

@[simp] theorem disconnectProcessor_sessionCloseCount (st : LiveState) :
    (disconnectProcessor st).sessionCloseCount = st.sessionCloseCount := by
  cases h : st.scriptProcessor <;> simp [disconnectProcessor, h]

@[simp] theorem disconnectProcessor_stream (st : LiveState) :
    (disconnectProcessor st).stream = st.stream := by
  cases h : st.scriptProcessor <;> simp [disconnectProcessor, h]

@[simp] theorem disconnectProcessor_streamStopCount (st : LiveState) :
    (disconnectProcessor st).streamStopCount = st.streamStopCount := by
  cases h : st.scriptProcessor <;> simp [disconnectProcessor, h]

@[simp] theorem disconnectProcessor_audioContext (st : LiveState) :
    (disconnectProcessor st).audioContext = st.audioContext := by
  cases h : st.scriptProcessor <;> simp [disconnectProcessor, h]

@[simp] theorem disconnectProcessor_outputAudioContext (st : LiveState) :
    (disconnectProcessor st).outputAudioContext = st.outputAudioContext := by
  cases h : st.scriptProcessor <;> simp [disconnectProcessor, h]

theorem disconnectProcessor_of_none {st : LiveState}
    (h : st.scriptProcessor = none) : disconnectProcessor st = st := by
  simp [disconnectProcessor, h]

@[simp] theorem closeInputCtx_ctxOpen (st : LiveState) :
    ctxOpen (closeInputCtx st).audioContext = false := by
  rcases h : st.audioContext with _ | ⟨cb, cc⟩ <;>
    [skip; cases cb] <;> simp [closeInputCtx, h, ctxOpen]

@[simp] theorem closeInputCtx_ctxCloseCount (st : LiveState) :
    ctxCloseCount (closeInputCtx st).audioContext
      = ctxCloseCount st.audioContext
        + (if ctxOpen st.audioContext then 1 else 0) := by
  rcases h : st.audioContext with _ | ⟨cb, cc⟩ <;>
    [skip; cases cb] <;> simp [closeInputCtx, h, ctxOpen, ctxCloseCount]

@[simp] theorem closeInputCtx_sessionPromise (st : LiveState) :
    (closeInputCtx st).sessionPromise = st.sessionPromise := by
  rcases h : st.audioContext with _ | ⟨cb, cc⟩ <;>
    [skip; cases cb] <;> simp [closeInputCtx, h]

@[simp] theorem closeInputCtx_sessionCloseCount (st : LiveState) :
    (closeInputCtx st).sessionCloseCount = st.sessionCloseCount := by
  rcases h : st.audioContext with _ | ⟨cb, cc⟩ <;>
    [skip; cases cb] <;> simp [closeInputCtx, h]

@[simp] theorem closeInputCtx_stream (st : LiveState) :
    (closeInputCtx st).stream = st.stream := by
  rcases h : st.audioContext with _ | ⟨cb, cc⟩ <;>
    [skip; cases cb] <;> simp [closeInputCtx, h]

@[simp] theorem closeInputCtx_streamStopCount (st : LiveState) :
    (closeInputCtx st).streamStopCount = st.streamStopCount := by
  rcases h : st.audioContext with _ | ⟨cb, cc⟩ <;>
    [skip; cases cb] <;> simp [closeInputCtx, h]

@[simp] theorem closeInputCtx_scriptProcessor (st : LiveState) :
    (closeInputCtx st).scriptProcessor = st.scriptProcessor := by
  rcases h : st.audioContext with _ | ⟨cb, cc⟩ <;>
    [skip; cases cb] <;> simp [closeInputCtx, h]

@[simp] theorem closeInputCtx_processorDisconnectCount (st : LiveState) :
    (closeInputCtx st).processorDisconnectCount
      = st.processorDisconnectCount := by
  rcases h : st.audioContext with _ | ⟨cb, cc⟩ <;>
    [skip; cases cb] <;> simp [closeInputCtx, h]

@[simp] theorem closeInputCtx_captureWired (st : LiveState) :
    (closeInputCtx st).captureWired = st.captureWired := by
  rcases h : st.audioContext with _ | ⟨cb, cc⟩ <;>
    [skip; cases cb] <;> simp [closeInputCtx, h]

@[simp] theorem closeInputCtx_outputAudioContext (st : LiveState) :
    (closeInputCtx st).outputAudioContext = st.outputAudioContext := by
  rcases h : st.audioContext with _ | ⟨cb, cc⟩ <;>
    [skip; cases cb] <;> simp [closeInputCtx, h]

theorem closeInputCtx_of_closed {st : LiveState}
    (h : ctxOpen st.audioContext = false) : closeInputCtx st = st := by
  rcases hc : st.audioContext with _ | ⟨cb, cc⟩
  · simp [closeInputCtx, hc]
  · rw [hc] at h
    cases cb
    · simp [ctxOpen] at h
    · simp [closeInputCtx, hc]

@[simp] theorem closeOutputCtx_ctxOpen (st : LiveState) :
    ctxOpen (closeOutputCtx st).outputAudioContext = false := by
  rcases h : st.outputAudioContext with _ | ⟨cb, cc⟩ <;>
    [skip; cases cb] <;> simp [closeOutputCtx, h, ctxOpen]

@[simp] theorem closeOutputCtx_ctxCloseCount (st : LiveState) :
    ctxCloseCount (closeOutputCtx st).outputAudioContext
      = ctxCloseCount st.outputAudioContext
        + (if ctxOpen st.outputAudioContext then 1 else 0) := by
  rcases h : st.outputAudioContext with _ | ⟨cb, cc⟩ <;>
    [skip; cases cb] <;> simp [closeOutputCtx, h, ctxOpen, ctxCloseCount]

@[simp] theorem closeOutputCtx_sessionPromise (st : LiveState) :
    (closeOutputCtx st).sessionPromise = st.sessionPromise := by
  rcases h : st.outputAudioContext with _ | ⟨cb, cc⟩ <;>
    [skip; cases cb] <;> simp [closeOutputCtx, h]

@[simp] theorem closeOutputCtx_sessionCloseCount (st : LiveState) :
    (closeOutputCtx st).sessionCloseCount = st.sessionCloseCount := by
  rcases h : st.outputAudioContext with _ | ⟨cb, cc⟩ <;>
    [skip; cases cb] <;> simp [closeOutputCtx, h]

@[simp] theorem closeOutputCtx_stream (st : LiveState) :
    (closeOutputCtx st).stream = st.stream := by
  rcases h : st.outputAudioContext with _ | ⟨cb, cc⟩ <;>
    [skip; cases cb] <;> simp [closeOutputCtx, h]

@[simp] theorem closeOutputCtx_streamStopCount (st : LiveState) :
    (closeOutputCtx st).streamStopCount = st.streamStopCount := by
  rcases h : st.outputAudioContext with _ | ⟨cb, cc⟩ <;>
    [skip; cases cb] <;> simp [closeOutputCtx, h]

@[simp] theorem closeOutputCtx_scriptProcessor (st : LiveState) :
    (closeOutputCtx st).scriptProcessor = st.scriptProcessor := by
  rcases h : st.outputAudioContext with _ | ⟨cb, cc⟩ <;>
    [skip; cases cb] <;> simp [closeOutputCtx, h]

@[simp] theorem closeOutputCtx_processorDisconnectCount (st : LiveState) :
    (closeOutputCtx st).processorDisconnectCount
      = st.processorDisconnectCount := by
  rcases h : st.outputAudioContext with _ | ⟨cb, cc⟩ <;>
    [skip; cases cb] <;> simp [closeOutputCtx, h]

@[simp] theorem closeOutputCtx_captureWired (st : LiveState) :
    (closeOutputCtx st).captureWired = st.captureWired := by
  rcases h : st.outputAudioContext with _ | ⟨cb, cc⟩ <;>
    [skip; cases cb] <;> simp [closeOutputCtx, h]

@[simp] theorem closeOutputCtx_audioContext (st : LiveState) :
    (closeOutputCtx st).audioContext = st.audioContext := by
  rcases h : st.outputAudioContext with _ | ⟨cb, cc⟩ <;>
    [skip; cases cb] <;> simp [closeOutputCtx, h]

theorem closeOutputCtx_of_closed {st : LiveState}
    (h : ctxOpen st.outputAudioContext = false) : closeOutputCtx st = st := by
  rcases hc : st.outputAudioContext with _ | ⟨cb, cc⟩
  · simp [closeOutputCtx, hc]
  · rw [hc] at h
    cases cb
    · simp [ctxOpen] at h
    · simp [closeOutputCtx, hc]

@[simp] theorem stopConversation_connectionState (st : LiveState) :
    (stopConversation st).connectionState = ConnectionState.disconnected := by
  simp [stopConversation]

@[simp] theorem stopConversation_sessionPromise (st : LiveState) :
    (stopConversation st).sessionPromise = none := by
  simp [stopConversation]

@[simp] theorem stopConversation_stream (st : LiveState) :
    (stopConversation st).stream = none := by
  simp [stopConversation]

@[simp] theorem stopConversation_scriptProcessor (st : LiveState) :
    (stopConversation st).scriptProcessor = none := by
  simp [stopConversation]

@[simp] theorem stopConversation_ctxOpen_input (st : LiveState) :
    ctxOpen (stopConversation st).audioContext = false := by
  simp [stopConversation]

@[simp] theorem stopConversation_ctxOpen_output (st : LiveState) :
    ctxOpen (stopConversation st).outputAudioContext = false := by
  simp [stopConversation]

@[simp] theorem stopConversation_sessionCloseCount (st : LiveState) :
    (stopConversation st).sessionCloseCount
      = st.sessionCloseCount + (if st.sessionPromise.isSome then 1 else 0) := by
  simp [stopConversation]

@[simp] theorem stopConversation_streamStopCount (st : LiveState) :
    (stopConversation st).streamStopCount
      = st.streamStopCount + (if st.stream.isSome then 1 else 0) := by
  simp [stopConversation]

@[simp] theorem stopConversation_processorDisconnectCount (st : LiveState) :
    (stopConversation st).processorDisconnectCount
      = st.processorDisconnectCount
        + (if st.scriptProcessor.isSome then 1 else 0) := by
  simp [stopConversation]

@[simp] theorem stopConversation_input_ctxCloseCount (st : LiveState) :
    ctxCloseCount (stopConversation st).audioContext
      = ctxCloseCount st.audioContext
        + (if ctxOpen st.audioContext then 1 else 0) := by
  simp [stopConversation]

@[simp] theorem stopConversation_output_ctxCloseCount (st : LiveState) :
    ctxCloseCount (stopConversation st).outputAudioContext
      = ctxCloseCount st.outputAudioContext
        + (if ctxOpen st.outputAudioContext then 1 else 0) := by
  simp [stopConversation]

/-- A second `stopConversation` finds every handle already null and both
contexts already closed, so it changes nothing. -/
theorem stopConversation_idem (st : LiveState) :
    stopConversation (stopConversation st) = stopConversation st := by
  conv_lhs => rw [stopConversation]
  rw [closeSession_of_none (stopConversation_sessionPromise st)]
  rw [stopStreamTracks_of_none (stopConversation_stream st)]
  rw [disconnectProcessor_of_none (stopConversation_scriptProcessor st)]
  rw [closeInputCtx_of_closed (stopConversation_ctxOpen_input st)]
  rw [closeOutputCtx_of_closed (stopConversation_ctxOpen_output st)]
  have h := stopConversation_connectionState st
  rw [← h]

theorem stopConversation_iterate (st : LiveState) (n : Nat) (hn : 1 ≤ n) :
    stopConversation^[n] st = stopConversation st := by
  induction n with
  | zero => omega
  | succ m ih =>
      rcases Nat.eq_or_lt_of_le hn with h1 | h1
      · rw [← h1]
        simp
      · have hm : 1 ≤ m := by omega
        rw [Function.iterate_succ_apply', ih hm, stopConversation_idem]

@[simp] theorem onopenStep_sessionPromise (g : Bool) (st : LiveState) :
    (onopenStep g st).sessionPromise = st.sessionPromise := by
  cases g <;> simp [onopenStep]

/-- A fully running Capture Session: connected, with live session handle,
device stream, processor and both contexts open. -/
def activeState : LiveState where
  connectionState := ConnectionState.connected
  transcripts := []
  currentInterim := ⟨"", ""⟩
  sessionPromise := some ()
  sessionCloseCount := 0
  stream := some ()
  streamStopCount := 0
  scriptProcessor := some ()
  processorDisconnectCount := 0
  audioContext := some ⟨false, 0⟩
  outputAudioContext := some ⟨false, 0⟩
  nextStartTime := 0
  sources := []
  captureWired := true

/-- A disconnected state still carrying transcript text, interim text, a
playback cursor position and scheduled sources from an earlier
conversation. -/
def staleState : LiveState :=
  { initialState with
      transcripts := [⟨"old user", "old model"⟩]
      currentInterim := ⟨"partial", "text"⟩
      nextStartTime := 42
      sources := [1, 2, 3] }

/-- Claim C5: stopConversation is idempotent and safe from every state:
any positive number of calls ends disconnected, the repeated call equals a
single call, and each owned resource (session handle, device stream,
frame-capture processor, the two audio contexts) is released exactly once
when held and never a second time. -/
theorem stopConversation_idempotent_release_once (st : LiveState) (n : Nat)
    (hn : 1 ≤ n) :
    stopConversation^[n] st = stopConversation st
    ∧ (stopConversation^[n] st).connectionState = ConnectionState.disconnected
    ∧ (stopConversation^[n] st).sessionCloseCount
        = st.sessionCloseCount + (if st.sessionPromise.isSome then 1 else 0)
    ∧ (stopConversation^[n] st).streamStopCount
        = st.streamStopCount + (if st.stream.isSome then 1 else 0)
    ∧ (stopConversation^[n] st).processorDisconnectCount
        = st.processorDisconnectCount
          + (if st.scriptProcessor.isSome then 1 else 0)
    ∧ ctxCloseCount (stopConversation^[n] st).audioContext
        = ctxCloseCount st.audioContext
          + (if ctxOpen st.audioContext then 1 else 0)
    ∧ ctxCloseCount (stopConversation^[n] st).outputAudioContext
        = ctxCloseCount st.outputAudioContext
          + (if ctxOpen st.outputAudioContext then 1 else 0) := by
  rw [stopConversation_iterate st n hn]
  refine ⟨rfl, ?_, ?_, ?_, ?_, ?_, ?_⟩ <;> simp

/-- Witness for C5 at a concrete running state and two calls. -/
theorem stopConversation_idempotent_release_once_witness :
    1 ≤ 2
    ∧ (stopConversation^[2] activeState = stopConversation activeState
       ∧ (stopConversation^[2] activeState).connectionState
           = ConnectionState.disconnected
       ∧ (stopConversation^[2] activeState).sessionCloseCount
           = activeState.sessionCloseCount
             + (if activeState.sessionPromise.isSome then 1 else 0)
       ∧ (stopConversation^[2] activeState).streamStopCount
           = activeState.streamStopCount
             + (if activeState.stream.isSome then 1 else 0)
       ∧ (stopConversation^[2] activeState).processorDisconnectCount
           = activeState.processorDisconnectCount
             + (if activeState.scriptProcessor.isSome then 1 else 0)
       ∧ ctxCloseCount (stopConversation^[2] activeState).audioContext
           = ctxCloseCount activeState.audioContext
             + (if ctxOpen activeState.audioContext then 1 else 0)
       ∧ ctxCloseCount (stopConversation^[2] activeState).outputAudioContext
           = ctxCloseCount activeState.outputAudioContext
             + (if ctxOpen activeState.outputAudioContext then 1 else 0)) :=
  ⟨by decide, stopConversation_idempotent_release_once activeState 2 (by decide)⟩

/-- Claim C6: startConversation called while connecting or connected is a
no-op: the early return fires and the whole state (hence session handle,
stream, everything) is unchanged. -/
theorem startConversation_active_noop (st : LiveState)
    (h : st.connectionState = ConnectionState.connecting
         ∨ st.connectionState = ConnectionState.connected) :
    startConversation st = st := by
  rcases h with h | h <;> simp [startConversation, h]

/-- Witness for C6 at a concrete connected state. -/
theorem startConversation_active_noop_witness :
    (activeState.connectionState = ConnectionState.connecting
     ∨ activeState.connectionState = ConnectionState.connected)
    ∧ startConversation activeState = activeState :=
  ⟨Or.inr rfl, startConversation_active_noop activeState (Or.inr rfl)⟩

/-- The turn-complete branch of `handleMessage` on a message carrying only
the turn-complete signal: append the captured interim pair to the finalized
list and reset the interim accumulator. -/
theorem handleMessage_turnComplete (cap : InterimPair) (now : ℚ)
    (st : LiveState) :
    handleMessage cap now turnCompleteMsg st
      = { st with transcripts := st.transcripts ++ [cap]
                  currentInterim := ⟨"", ""⟩ } := by
  rcases h : st.outputAudioContext with _ | c <;>
    simp [handleMessage, turnCompleteMsg, h]

/-- Claim C10 (counterexample): transcript text does carry over from a
previous conversation into a new one.  Conversation one accumulates the
user fragment "Hello there" without a turn-complete; stopConversation does
not reset the interim accumulator; the render that starts conversation two
therefore still holds that pair, the new session callbacks capture it, and
the first turn-complete of the new conversation appends the previous
conversation's text to the new finalized list. -/
theorem fresh_start_transcript_carryover :
    (stopConversation (processMsgs ⟨"", ""⟩ [(0, userMsg "Hello there")]
        (startConversation initialState))).currentInterim
      = ⟨"Hello there", ""⟩
    ∧ (processMsgs
         (stopConversation (processMsgs ⟨"", ""⟩ [(0, userMsg "Hello there")]
             (startConversation initialState))).currentInterim
         [(0, turnCompleteMsg)]
         (startConversation
           (stopConversation (processMsgs ⟨"", ""⟩
               [(0, userMsg "Hello there")]
               (startConversation initialState))))).transcripts
        = [⟨"Hello there", ""⟩] := by
  decide

/-- Claim C10 (amended): startConversation taken from disconnected resets
the finalized transcript list, both interim accumulators, the playback
cursor and the scheduled-source set, before the session opens (the reset
fields are already empty in the state in which the connectLive promise is
stored); however, the new session's callbacks capture the interim pair as
of the render that started it — the pre-start value `st.currentInterim` —
so the first turn-complete of the new conversation finalizes exactly that
captured pair, and unfinalized transcript text from a previous conversation
carries over whenever that pair is non-empty. -/
theorem startConversation_fresh_record (st : LiveState)
    (h : st.connectionState = ConnectionState.disconnected) :
    (startConversation st).transcripts = []
    ∧ (startConversation st).currentInterim = ⟨"", ""⟩
    ∧ (startConversation st).nextStartTime = 0
    ∧ (startConversation st).sources = []
    ∧ (startConversation st).connectionState = ConnectionState.connecting
    ∧ (startConversation st).sessionPromise = some ()
    ∧ (processMsgs st.currentInterim [((0 : ℚ), turnCompleteMsg)]
         (startConversation st)).transcripts = [st.currentInterim] := by
  have hreset : (startConversation st).transcripts = [] := by
    simp [startConversation, h]
  refine ⟨hreset, ?_, ?_, ?_, ?_, ?_, ?_⟩
  · simp [startConversation, h]
  · simp [startConversation, h]
  · simp [startConversation, h]
  · simp [startConversation, h]
  · simp [startConversation, h]
  · rw [show processMsgs st.currentInterim [((0 : ℚ), turnCompleteMsg)]
          (startConversation st)
        = handleMessage st.currentInterim 0 turnCompleteMsg
            (startConversation st) from rfl]
    rw [handleMessage_turnComplete]
    simp [hreset]

/-- Witness for the amended C10 at a concrete stale disconnected state:
the non-empty pre-start interim pair ("partial", "text") is what the first
turn-complete of the new conversation finalizes. -/
theorem startConversation_fresh_record_witness :
    staleState.connectionState = ConnectionState.disconnected
    ∧ ((startConversation staleState).transcripts = []
       ∧ (startConversation staleState).currentInterim = ⟨"", ""⟩
       ∧ (startConversation staleState).nextStartTime = 0
       ∧ (startConversation staleState).sources = []
       ∧ (startConversation staleState).connectionState
           = ConnectionState.connecting
       ∧ (startConversation staleState).sessionPromise = some ()
       ∧ (processMsgs staleState.currentInterim
            [((0 : ℚ), turnCompleteMsg)]
            (startConversation staleState)).transcripts
           = [staleState.currentInterim]) :=
  ⟨rfl, startConversation_fresh_record staleState rfl⟩

/-- Claim C8: after stopConversation the session handle is null, so any
capture block delivered later produces no transmission; this also holds if
a pending onopen (an in-flight permission prompt) resolves after the stop,
since onopen does not restore the session handle. -/
theorem no_send_after_stop (st : LiveState) (block : List ℚ) (g : Bool) :
    (stopConversation st).sessionPromise = none
    ∧ onaudioprocess (stopConversation st).sessionPromise block = []
    ∧ (onopenStep g (stopConversation st)).sessionPromise = none
    ∧ onaudioprocess (onopenStep g (stopConversation st)).sessionPromise block
        = [] := by
  have h : (stopConversation st).sessionPromise = none :=
    stopConversation_sessionPromise st
  have h2 : (onopenStep g (stopConversation st)).sessionPromise = none := by
    rw [onopenStep_sessionPromise, h]
  exact ⟨h, by rw [h]; rfl, h2, by rw [h2]; rfl⟩

/-- Claim C3 (code bug record): starting from disconnected and then
receiving the open signal with microphone permission denied, the state goes
disconnected, connecting, connected and stays connected: the rejection
inside the async onopen callback is unobserved, so no transition to error
happens, and no frame-capture stage is wired. -/
theorem permission_denied_no_error_transition :
    (startConversation initialState).connectionState
        = ConnectionState.connecting
    ∧ (onopenStep false (startConversation initialState)).connectionState
        = ConnectionState.connected
    ∧ (onopenStep false (startConversation initialState)).connectionState
        ≠ ConnectionState.error
    ∧ (onopenStep false (startConversation initialState)).captureWired = false
    ∧ (onopenStep false (startConversation initialState)).stream = none
    ∧ (onopenStep false (startConversation initialState)).scriptProcessor
        = none := by
  decide

/-- Claim C4 (counterexample): processing the remote error signal in a
connected running state ends with connection state disconnected, not error:
the onerror handler invokes stopConversation, whose final action overwrites
the error state. -/
theorem onerror_final_state_not_error :
    (onerrorStep activeState).connectionState = ConnectionState.disconnected
    ∧ (onerrorStep activeState).connectionState ≠ ConnectionState.error := by
  decide

/-- Claim C4 (amended): on the remote error signal while connected, the
handler first sets the state to error (transiently), the resulting teardown
stops the device stream exactly once, and the final state is
disconnected. -/
theorem onerror_transient_error_then_teardown (st : LiveState)
    (_hconn : st.connectionState = ConnectionState.connected)
    (hstream : st.stream = some ()) :
    ({ st with connectionState := ConnectionState.error }).connectionState
        = ConnectionState.error
    ∧ (onerrorStep st).streamStopCount = st.streamStopCount + 1
    ∧ (onerrorStep st).stream = none
    ∧ (onerrorStep st).connectionState = ConnectionState.disconnected := by
  refine ⟨rfl, ?_, stopConversation_stream _, stopConversation_connectionState _⟩
  show (stopConversation { st with connectionState := ConnectionState.error }).streamStopCount = _
  rw [stopConversation_streamStopCount]
  simp [hstream]

/-- Witness for the amended C4 at the concrete running state. -/
theorem onerror_transient_error_then_teardown_witness :
    activeState.connectionState = ConnectionState.connected
    ∧ activeState.stream = some ()
    ∧ (({ activeState with connectionState := ConnectionState.error }).connectionState
          = ConnectionState.error
       ∧ (onerrorStep activeState).streamStopCount
           = activeState.streamStopCount + 1
       ∧ (onerrorStep activeState).stream = none
       ∧ (onerrorStep activeState).connectionState
           = ConnectionState.disconnected) :=
  ⟨rfl, rfl, onerror_transient_error_then_teardown activeState rfl rfl⟩

/-- Claim C2 (code bug record): for the inbound sequence
[user "Hel", user "lo", turnComplete, model "Hi"] processed from a freshly
started conversation, the finalized list receives the stale captured
interim pair (the empty pair from the render that started the session)
instead of the accumulated pair ("Hello", ""); the model fragment "Hi" does
land in the fresh interim accumulator. -/
theorem turnComplete_appends_stale_interim :
    (processMsgs ⟨"", ""⟩
        [(0, userMsg "Hel"), (0, userMsg "lo"),
         (0, turnCompleteMsg), (0, modelMsg "Hi")]
        (startConversation initialState)).transcripts = [⟨"", ""⟩]
    ∧ (processMsgs ⟨"", ""⟩
        [(0, userMsg "Hel"), (0, userMsg "lo"),
         (0, turnCompleteMsg), (0, modelMsg "Hi")]
        (startConversation initialState)).transcripts ≠ [⟨"Hello", ""⟩]
    ∧ (processMsgs ⟨"", ""⟩
        [(0, userMsg "Hel"), (0, userMsg "lo"),
         (0, turnCompleteMsg), (0, modelMsg "Hi")]
        (startConversation initialState)).currentInterim = ⟨"", "Hi"⟩ := by
  decide

/-- Process a sequence of inbound audio-only messages, each given as
(arrival time on the output clock, decoded buffer duration), through
`handleMessage` in arrival order. -/
def processAudio (frags : List (ℚ × ℚ)) (st : LiveState) : LiveState :=
  processMsgs ⟨"", ""⟩ (frags.map fun p => (p.1, audioMsg p.2)) st

theorem handleMessage_audio (cap : InterimPair) (now dur : ℚ)
    (st : LiveState) (h : st.outputAudioContext.isSome) :
    handleMessage cap now (audioMsg dur) st
      = { st with nextStartTime := max st.nextStartTime now + dur
                  sources := st.sources ++ [max st.nextStartTime now] } := by
  rcases hc : st.outputAudioContext with _ | c
  · rw [hc] at h
    simp at h
  · simp [handleMessage, audioMsg, hc]

theorem getD_mem {α : Type} (l : List α) (d : α) (i : Nat)
    (h : i < l.length) : l.getD i d ∈ l := by
  induction l generalizing i with
  | nil => simp at h
  | cons a t ih =>
      cases i with
      | zero => simp
      | succ j =>
          have hj : j < t.length := by
            simpa using Nat.lt_of_succ_lt_succ h
          simp only [List.getD_cons_succ]
          exact List.mem_cons_of_mem _ (ih j hj)

theorem scheduleStarts_length (c : ℚ) (fs : List (ℚ × ℚ)) :
    (scheduleStarts c fs).length = fs.length := by
  induction fs generalizing c with
  | nil => rfl
  | cons a rest ih =>
      obtain ⟨t, d⟩ := a
      simp [scheduleStarts, ih]

/-- The start time of fragment i+1 is the maximum of the end of fragment i
and the arrival time of fragment i+1: the cursor after fragment i is
exactly start(i) + duration(i), and the next start is max(cursor, now). -/
theorem scheduleStarts_getD_succ (c : ℚ) (fs : List (ℚ × ℚ)) (i : Nat)
    (h : i + 1 < fs.length) :
    (scheduleStarts c fs).getD (i + 1) 0
      = max ((scheduleStarts c fs).getD i 0 + (fs.getD i (0, 0)).2)
            ((fs.getD (i + 1) (0, 0)).1) := by
  induction i generalizing c fs with
  | zero =>
      match fs with
      | [] => simp at h
      | [a] => simp at h
      | (t0, d0) :: (t1, d1) :: rest =>
          simp [scheduleStarts]
  | succ j ih =>
      match fs with
      | [] => simp at h
      | (t0, d0) :: rest =>
          have h' : j + 1 < rest.length := by
            simpa using Nat.lt_of_succ_lt_succ h
          simp only [scheduleStarts, List.getD_cons_succ]
          exact ih (max c t0 + d0) rest h'

/-- The audio branch of `handleMessage`, folded over a fragment sequence,
appends exactly the `scheduleStarts` start times to the scheduled-source
list, in arrival order. -/
theorem processAudio_sources (st : LiveState) (frags : List (ℚ × ℚ))
    (h : st.outputAudioContext.isSome) :
    (processAudio frags st).sources
      = st.sources ++ scheduleStarts st.nextStartTime frags := by
  induction frags generalizing st with
  | nil => simp [processAudio, processMsgs, scheduleStarts]
  | cons a rest ih =>
      obtain ⟨t, d⟩ := a
      have hstep := handleMessage_audio ⟨"", ""⟩ t d st h
      have hnext :
          (handleMessage ⟨"", ""⟩ t (audioMsg d) st).outputAudioContext
            = st.outputAudioContext := by
        rw [hstep]
      have hrec := ih (handleMessage ⟨"", ""⟩ t (audioMsg d) st)
        (by rw [hnext]; exact h)
      have hunfold :
          processAudio ((t, d) :: rest) st
            = processAudio rest (handleMessage ⟨"", ""⟩ t (audioMsg d) st) := by
        simp [processAudio, processMsgs]
      rw [hunfold, hrec, hstep]
      simp [scheduleStarts]

/-- Claim C1: each inbound audio fragment is scheduled at
max(cursor, output-clock now) and the cursor advances by the buffer
duration; hence the recorded schedule is exactly `scheduleStarts`, adjacent
start times satisfy s(i+1) = max(s(i) + d(i), t(i+1)), which yields
s(i+1) ≥ s(i) + d(i) (no overlap), start times in arrival order, and on an
underrun t(i+1) > s(i) + d(i) the fragment starts exactly at t(i+1). -/
theorem playback_schedule_monotone_no_overlap (st : LiveState)
    (hctx : st.outputAudioContext.isSome)
    (frags : List (ℚ × ℚ)) (hd : ∀ p ∈ frags, 0 ≤ p.2)
    (i : Nat) (hi : i + 1 < frags.length) :
    (processAudio frags st).sources
        = st.sources ++ scheduleStarts st.nextStartTime frags
    ∧ (scheduleStarts st.nextStartTime frags).getD (i + 1) 0
        = max ((scheduleStarts st.nextStartTime frags).getD i 0
                 + (frags.getD i (0, 0)).2)
              ((frags.getD (i + 1) (0, 0)).1)
    ∧ (scheduleStarts st.nextStartTime frags).getD i 0
          + (frags.getD i (0, 0)).2
        ≤ (scheduleStarts st.nextStartTime frags).getD (i + 1) 0
    ∧ (scheduleStarts st.nextStartTime frags).getD i 0
        ≤ (scheduleStarts st.nextStartTime frags).getD (i + 1) 0
    ∧ ((frags.getD i (0, 0)).2
          + (scheduleStarts st.nextStartTime frags).getD i 0
        < (frags.getD (i + 1) (0, 0)).1
        → (scheduleStarts st.nextStartTime frags).getD (i + 1) 0
            = (frags.getD (i + 1) (0, 0)).1) := by
  have hkey := scheduleStarts_getD_succ st.nextStartTime frags i hi
  have hdur : 0 ≤ (frags.getD i (0, 0)).2 :=
    hd _ (getD_mem frags (0, 0) i (Nat.lt_of_succ_lt hi))
  refine ⟨processAudio_sources st frags hctx, hkey, ?_, ?_, ?_⟩
  · rw [hkey]
    exact le_max_left _ _
  · calc (scheduleStarts st.nextStartTime frags).getD i 0
        ≤ (scheduleStarts st.nextStartTime frags).getD i 0
            + (frags.getD i (0, 0)).2 := by linarith
      _ ≤ (scheduleStarts st.nextStartTime frags).getD (i + 1) 0 := by
          rw [hkey]; exact le_max_left _ _
  · intro hlt
    rw [hkey]
    exact max_eq_right (by linarith)

/-- Witness for C1: three fragments of duration 1 arriving at times
0, 1/2, 3 from a freshly started conversation; the third arrives after the
second ends (underrun), so it starts exactly at its arrival time 3. -/
theorem playback_schedule_monotone_no_overlap_witness :
    (startConversation initialState).outputAudioContext.isSome = true
    ∧ (∀ p ∈ [((0 : ℚ), (1 : ℚ)), (1/2, 1), (3, 1)], 0 ≤ p.2)
    ∧ (1 + 1 < ([((0 : ℚ), (1 : ℚ)), (1/2, 1), (3, 1)]).length)
    ∧ ((processAudio [((0 : ℚ), (1 : ℚ)), (1/2, 1), (3, 1)]
          (startConversation initialState)).sources
        = (startConversation initialState).sources
            ++ scheduleStarts (startConversation initialState).nextStartTime
                 [((0 : ℚ), (1 : ℚ)), (1/2, 1), (3, 1)]
       ∧ (scheduleStarts (startConversation initialState).nextStartTime
            [((0 : ℚ), (1 : ℚ)), (1/2, 1), (3, 1)]).getD (1 + 1) 0
           = max ((scheduleStarts (startConversation initialState).nextStartTime
                     [((0 : ℚ), (1 : ℚ)), (1/2, 1), (3, 1)]).getD 1 0
                    + (([((0 : ℚ), (1 : ℚ)), (1/2, 1), (3, 1)]).getD 1 (0, 0)).2)
                 ((([((0 : ℚ), (1 : ℚ)), (1/2, 1), (3, 1)]).getD (1 + 1) (0, 0)).1)
       ∧ (scheduleStarts (startConversation initialState).nextStartTime
            [((0 : ℚ), (1 : ℚ)), (1/2, 1), (3, 1)]).getD 1 0
             + (([((0 : ℚ), (1 : ℚ)), (1/2, 1), (3, 1)]).getD 1 (0, 0)).2
           ≤ (scheduleStarts (startConversation initialState).nextStartTime
                [((0 : ℚ), (1 : ℚ)), (1/2, 1), (3, 1)]).getD (1 + 1) 0
       ∧ (scheduleStarts (startConversation initialState).nextStartTime
            [((0 : ℚ), (1 : ℚ)), (1/2, 1), (3, 1)]).getD 1 0
           ≤ (scheduleStarts (startConversation initialState).nextStartTime
                [((0 : ℚ), (1 : ℚ)), (1/2, 1), (3, 1)]).getD (1 + 1) 0
       ∧ ((([((0 : ℚ), (1 : ℚ)), (1/2, 1), (3, 1)]).getD 1 (0, 0)).2
             + (scheduleStarts (startConversation initialState).nextStartTime
                  [((0 : ℚ), (1 : ℚ)), (1/2, 1), (3, 1)]).getD 1 0
           < (([((0 : ℚ), (1 : ℚ)), (1/2, 1), (3, 1)]).getD (1 + 1) (0, 0)).1
           → (scheduleStarts (startConversation initialState).nextStartTime
                [((0 : ℚ), (1 : ℚ)), (1/2, 1), (3, 1)]).getD (1 + 1) 0
               = (([((0 : ℚ), (1 : ℚ)), (1/2, 1), (3, 1)]).getD (1 + 1) (0, 0)).1)) :=
  ⟨rfl, by decide, by decide,
   playback_schedule_monotone_no_overlap (startConversation initialState)
     rfl [((0 : ℚ), (1 : ℚ)), (1/2, 1), (3, 1)] (by decide) 1 (by decide)⟩

theorem int16Wrap_eq_self (v : ℤ) (h1 : -32768 ≤ v) (h2 : v < 32768) :
    int16Wrap v = v := by
  unfold int16Wrap
  split <;> omega

theorem int16Wrap_range (v : ℤ) :
    -32768 ≤ int16Wrap v ∧ int16Wrap v < 32768 := by
  unfold int16Wrap
  constructor <;> split <;> omega

theorem ratTrunc_lower {x : ℚ} (h : -32768 ≤ x) : -32768 ≤ ratTrunc x := by
  unfold ratTrunc
  split
  · have h0 : (0 : ℤ) ≤ ⌊x⌋ := Int.floor_nonneg.mpr (by assumption)
    omega
  · have hx := Int.le_ceil x
    have hq : (-32768 : ℚ) ≤ (⌈x⌉ : ℚ) := le_trans h hx
    exact_mod_cast hq

theorem ratTrunc_upper {x : ℚ} (h : x < 32768) : ratTrunc x < 32768 := by
  unfold ratTrunc
  split
  · exact Int.floor_lt.mpr (by exact_mod_cast h)
  · have hx : x ≤ 0 := le_of_not_le (by assumption)
    have hc : ⌈x⌉ ≤ 0 := Int.ceil_le.mpr (by exact_mod_cast hx)
    omega

/-- For samples strictly below full scale the stored 16-bit value is the
truncated product itself: no wrap occurs. -/
theorem toInt16_eq_of_lt_one {q : ℚ} (h1 : -1 ≤ q) (h2 : q < 1) :
    toInt16 q = ratTrunc (q * 32768) := by
  apply int16Wrap_eq_self
  · exact ratTrunc_lower (by linarith)
  · exact ratTrunc_upper (by linarith)

/-- The sample +1.0 scales to 32768, which is out of Int16 range and wraps
modulo 2^16 to -32768. -/
theorem toInt16_one : toInt16 1 = -32768 := by
  have h1 : ratTrunc ((1 : ℚ) * 32768) = 32768 := by
    unfold ratTrunc
    rw [one_mul, if_pos (by norm_num)]
    rw [show (32768 : ℚ) = ((32768 : ℤ) : ℚ) by norm_num]
    exact Int.floor_intCast 32768
  unfold toInt16
  rw [h1]
  unfold int16Wrap
  split <;> omega

theorem flatMap_int16Bytes_length (vs : List ℤ) :
    (vs.flatMap int16Bytes).length = 2 * vs.length := by
  induction vs with
  | nil => rfl
  | cons v t ih =>
      simp only [List.flatMap_cons, List.length_append, ih, int16Bytes,
        List.length_cons, List.length_nil]
      omega

/-- Claim C7: for every captured block, the capture stage emits exactly one
realtime-input message whose payload is the base64 encoding of the
little-endian bytes of the 16-bit PCM conversion (scale by 32768, truncate,
wrap modulo 2^16), with mime type audio/pcm;rate=16000 and block size 4096;
each converted value lies in the signed 16-bit range, in-range products are
unchanged by the wrap, and the +1.0 sample wraps to -32768. -/
theorem capture_block_one_message (block : List ℚ)
    (hrange : ∀ q ∈ block, -1 ≤ q ∧ q ≤ 1) :
    onaudioprocess (some ()) block = [createBlob block]
    ∧ (onaudioprocess (some ()) block).length = 1
    ∧ (createBlob block).mimeType = "audio/pcm;rate=16000"
    ∧ (createBlob block).data
        = encode ((block.map toInt16).flatMap int16Bytes)
    ∧ ((block.map toInt16).flatMap int16Bytes).length = 2 * block.length
    ∧ scriptProcessorBufferSize = 4096
    ∧ (∀ q ∈ block, -32768 ≤ toInt16 q ∧ toInt16 q < 32768)
    ∧ (∀ q ∈ block, q < 1 → toInt16 q = ratTrunc (q * 32768))
    ∧ (∀ q ∈ block, q = 1 → toInt16 q = -32768) := by
  refine ⟨rfl, rfl, rfl, rfl, ?_, rfl, ?_, ?_, ?_⟩
  · rw [flatMap_int16Bytes_length, List.length_map]
  · intro q _
    exact int16Wrap_range _
  · intro q hq hlt
    exact toInt16_eq_of_lt_one (hrange q hq).1 hlt
  · intro q _ hone
    rw [hone]
    exact toInt16_one

/-- Witness for C7 on the concrete block [1, 1/2, -1/2, -1]. -/
theorem capture_block_one_message_witness :
    (∀ q ∈ [(1 : ℚ), 1/2, -1/2, -1], -1 ≤ q ∧ q ≤ 1)
    ∧ onaudioprocess (some ()) [(1 : ℚ), 1/2, -1/2, -1]
        = [createBlob [(1 : ℚ), 1/2, -1/2, -1]]
    ∧ (createBlob [(1 : ℚ), 1/2, -1/2, -1]).mimeType = "audio/pcm;rate=16000"
    ∧ (([(1 : ℚ), 1/2, -1/2, -1].map toInt16).flatMap int16Bytes).length
        = 2 * ([(1 : ℚ), 1/2, -1/2, -1]).length :=
  ⟨by intro q hq; fin_cases hq <;> constructor <;> norm_num,
   (capture_block_one_message [(1 : ℚ), 1/2, -1/2, -1]
      (by intro q hq; fin_cases hq <;> constructor <;> norm_num)).1,
   (capture_block_one_message [(1 : ℚ), 1/2, -1/2, -1]
      (by intro q hq; fin_cases hq <;> constructor <;> norm_num)).2.2.1,
   (capture_block_one_message [(1 : ℚ), 1/2, -1/2, -1]
      (by intro q hq; fin_cases hq <;> constructor <;> norm_num)).2.2.2.2.1⟩

theorem pollVideoOperation_some_done (done : Nat → Bool) (fuel k r : Nat)
    (h : pollVideoOperation done k fuel = some r) : done r = true := by
  induction fuel generalizing k with
  | zero =>
      by_cases hd : done k
      · simp only [pollVideoOperation, hd, if_pos] at h
        cases h
        exact hd
      · simp [pollVideoOperation, hd] at h
  | succ m ih =>
      by_cases hd : done k
      · simp only [pollVideoOperation, hd, if_pos] at h
        cases h
        exact hd
      · simp only [pollVideoOperation, hd, if_neg, Bool.false_eq_true,
          not_false_iff, ite_false] at h
        exact ih (k + 1) h

theorem pollVideoOperation_isSome_of_done (done : Nat → Bool) (k j fuel : Nat)
    (hkj : k ≤ j) (hjf : j ≤ k + fuel) (hdone : done j = true) :
    (pollVideoOperation done k fuel).isSome = true := by
  induction fuel generalizing k with
  | zero =>
      have hkj2 : k = j := by omega
      subst hkj2
      simp [pollVideoOperation, hdone]
  | succ m ih =>
      by_cases hd : done k
      · simp [pollVideoOperation, hd]
      · have hne : k ≠ j := by
          intro he
          rw [he] at hd
          exact hd hdone
        have h1 : k + 1 ≤ j := by omega
        have h2 : j ≤ (k + 1) + m := by omega
        simp only [pollVideoOperation, hd, Bool.false_eq_true, not_false_iff,
          ite_false, if_neg]
        exact ih (k + 1) h1 h2

theorem pollDelays_all_interval (done : Nat → Bool) (fuel k : Nat) :
    ∀ d ∈ pollDelays done k fuel, d = pollIntervalMs := by
  induction fuel generalizing k with
  | zero => simp [pollDelays]
  | succ m ih =>
      intro d hd
      by_cases hk : done k
      · simp [pollDelays, hk] at hd
      · simp only [pollDelays, hk, Bool.false_eq_true, not_false_iff,
          ite_false, if_neg, List.mem_cons] at hd
        rcases hd with hd | hd
        · exact hd
        · exact ih (k + 1) d hd

theorem pollVideoOperation_none_of_not_done (done : Nat → Bool) (fuel k : Nat)
    (h : ∀ j, k ≤ j → j ≤ k + fuel → done j = false) :
    pollVideoOperation done k fuel = none
    ∧ (pollDelays done k fuel).length = fuel := by
  induction fuel generalizing k with
  | zero =>
      have hk : done k = false := h k (le_refl k) (by omega)
      simp [pollVideoOperation, pollDelays, hk]
  | succ m ih =>
      have hk : done k = false := h k (le_refl k) (by omega)
      have h' : ∀ j, k + 1 ≤ j → j ≤ (k + 1) + m → done j = false := by
        intro j hj1 hj2
        exact h j (by omega) (by omega)
      have hrec := ih (k + 1) h'
      constructor
      · simp only [pollVideoOperation, hk, Bool.false_eq_true, not_false_iff,
          ite_false, if_neg]
        exact hrec.1
      · simp only [pollDelays, hk, Bool.false_eq_true, not_false_iff,
          ite_false, if_neg, List.length_cons]
        rw [hrec.2]

/-- Claim C9: the video polling loop sleeps a fixed 10000 ms before every
re-poll (no backoff), has no attempt cap and no timeout (with every poll up
to n reporting not-done the loop is still unresolved after n sleeps), exits
only on a poll that reports done, and a terminating run exists exactly when
the remote operation is eventually done. -/
theorem generateVideo_polling_fixed_no_cap (done : Nat → Bool) :
    ((∃ fuel, (pollVideoOperation done 0 fuel).isSome = true)
       ↔ (∃ k, done k = true))
    ∧ (∀ fuel r, pollVideoOperation done 0 fuel = some r → done r = true)
    ∧ (∀ fuel d, d ∈ pollDelays done 0 fuel → d = pollIntervalMs)
    ∧ pollIntervalMs = 10000
    ∧ (∀ n, (∀ j, j ≤ n → done j = false)
         → pollVideoOperation done 0 n = none
           ∧ (pollDelays done 0 n).length = n) := by
  refine ⟨⟨?_, ?_⟩, ?_, ?_, rfl, ?_⟩
  · rintro ⟨fuel, hs⟩
    rcases Option.isSome_iff_exists.mp hs with ⟨r, hr⟩
    exact ⟨r, pollVideoOperation_some_done done fuel 0 r hr⟩
  · rintro ⟨k, hk⟩
    exact ⟨k, pollVideoOperation_isSome_of_done done 0 k k (Nat.zero_le k)
      (by omega) hk⟩
  · intro fuel r hr
    exact pollVideoOperation_some_done done fuel 0 r hr
  · intro fuel d hd
    exact pollDelays_all_interval done fuel 0 d hd
  · intro n hn
    exact pollVideoOperation_none_of_not_done done n 0
      (fun j h1 h2 => hn j (by omega))

/-- Witness for C9 with an operation that completes at the third poll. -/
theorem generateVideo_polling_fixed_no_cap_witness :
    pollVideoOperation (fun k => decide (k = 2)) 0 5 = some 2
    ∧ pollDelays (fun k => decide (k = 2)) 0 5 = [10000, 10000]
    ∧ ((∃ fuel,
          (pollVideoOperation (fun k => decide (k = 2)) 0 fuel).isSome = true)
        ↔ (∃ k, (fun k => decide (k = 2)) k = true))
    ∧ pollIntervalMs = 10000 :=
  ⟨by decide, by decide,
   (generateVideo_polling_fixed_no_cap (fun k => decide (k = 2))).1,
   (generateVideo_polling_fixed_no_cap (fun k => decide (k = 2))).2.2.2.1⟩

end CreatorAI
